import Mathlib

/-!
Verification of the WB Ads auto scheduler core (wb_ad_auto_scheduler.py)
and the WB SmartBid executor (WB_SmartBid/executor.py).

Shallow embedding conventions:
- Python datetime.time values (hour, minute, second; microsecond is always 0
  in this program) are the structure Dtime; Python compares them
  lexicographically by component, modelled by time_lt and time_le.
- Python datetime.datetime is the structure DateTime carrying the calendar
  fields plus the weekday already computed (the decide contract takes a
  datetime-with-weekday); weekday_int dt = dt.weekday() + 1.
- Period.start and Period.end are stored in the source as HH:MM strings and
  parsed with parse_time_hhmm on every match; here a Period carries the
  parsed times (parse_time_hhmm is modelled separately on strings).
- Python dict last_applied is an association list with insert-or-replace
  update, preserving dict key-update semantics.
- Fallible calls (requests raising, int() raising) are modelled with
  Option and Except.
-/

namespace WB

/-- Python datetime.time restricted to the fields this program constructs
(hour, minute, second; microsecond is always zero here). -/
structure Dtime where
  hour : Nat
  minute : Nat
  second : Nat
deriving DecidableEq, Repr

/-- Python comparison of time values: lexicographic by (hour, minute, second). -/
def time_lt (a b : Dtime) : Bool :=
  decide (a.hour < b.hour) ||
    (decide (a.hour = b.hour) &&
      (decide (a.minute < b.minute) ||
        (decide (a.minute = b.minute) && decide (a.second < b.second))))

/-- Python comparison a <= b on time values: a < b or a = b. -/
def time_le (a b : Dtime) : Bool :=
  time_lt a b || decide (a = b)

/-- Source is_cross_day: start > end is treated as a cross-midnight period. -/
def is_cross_day (start_t end_t : Dtime) : Bool :=
  time_lt end_t start_t

/-- Source time_in_range: membership in the half-open interval from start
to end, for a non-cross-midnight period. -/
def time_in_range (now_t start_t end_t : Dtime) : Bool :=
  time_le start_t now_t && time_lt now_t end_t

/-- Source time_in_crossday_range: now >= start or now < end, the union of
the two half-open ranges around midnight. -/
def time_in_crossday_range (now_t start_t end_t : Dtime) : Bool :=
  time_le start_t now_t || time_lt now_t end_t

/-- Source parse_time_hhmm: strip, split on the colon, convert both parts
with int(), and build a time value (datetime.time validates the ranges). -/
def parse_time_hhmm (s : String) : Option Dtime :=
  match s.trim.splitOn ":" with
  | [hs, ms] =>
    match hs.toNat?, ms.toNat? with
    | some h, some m => if h < 24 && m < 60 then some ⟨h, m, 0⟩ else none
    | _, _ => none
  | _ => none

/-- Python datetime.date as constructed by dt.date(). -/
structure PyDate where
  year : Nat
  month : Nat
  day : Nat
deriving DecidableEq, Repr

/-- Source parse_date_ymd: split on the dash into exactly three parts and
convert each with int(); any failure raises and is modelled as none. -/
def parse_date_ymd (s : String) : Option PyDate :=
  match s.splitOn "-" with
  | [ys, ms, ds] =>
    match ys.toNat?, ms.toNat?, ds.toNat? with
    | some y, some m, some d => some ⟨y, m, d⟩
    | _, _, _ => none
  | _ => none

/-- Python datetime.datetime as the decide contract consumes it: calendar
fields, time of day, and the weekday already computed from the date
(pyWeekday follows the Python convention Monday = 0 .. Sunday = 6). -/
structure DateTime where
  year : Nat
  month : Nat
  day : Nat
  hour : Nat
  minute : Nat
  second : Nat
  pyWeekday : Nat
deriving DecidableEq, Repr

/-- Source weekday_int: Python weekday (Monday = 0) shifted to 1..7. -/
def weekday_int (dt : DateTime) : Int :=
  (dt.pyWeekday : Int) + 1

/-- The time-of-day the engine builds from now: dtime(hour, minute, second). -/
def timeOfDay (dt : DateTime) : Dtime :=
  ⟨dt.hour, dt.minute, dt.second⟩

/-- dt.date() of a datetime. -/
def dateOf (dt : DateTime) : PyDate :=
  ⟨dt.year, dt.month, dt.day⟩

/-- The idempotency bucket built by strftime of the year, month, day, hour
and minute; the format string is injective on those fields, so the bucket
is modelled by the field tuple itself. -/
structure MinuteBucket where
  year : Nat
  month : Nat
  day : Nat
  hour : Nat
  minute : Nat
deriving DecidableEq, Repr

/-- now_dt.strftime of the date and the hour:minute, dropping seconds. -/
def minuteBucket (dt : DateTime) : MinuteBucket :=
  ⟨dt.year, dt.month, dt.day, dt.hour, dt.minute⟩

/-- The three desired actions of the DesiredAction literal type. -/
inductive DesiredAction where
  | start
  | pause
  | stop
deriving DecidableEq, Repr

/-- A scheduling period: the source stores start and end as HH:MM strings
and parses them with parse_time_hhmm at every match; the model carries the
parsed times (second component 0 for parsed values, but the matching
functions are total on all time values). The end field is named endT
because end is a Lean keyword. -/
structure Period where
  start : Dtime
  endT : Dtime
  action : DesiredAction
deriving DecidableEq, Repr

/-- Target selector: the source keeps type as one of the strings ids,
name_prefix, tags, with three optional payload fields. -/
structure TargetSpec where
  type : String := "ids"
  ids : Option (List Int) := none
  name_prefix : Option String := none
  tags : Option (List String) := none
deriving DecidableEq, Repr

/-- A scheduling rule. -/
structure Rule where
  name : String
  targets : TargetSpec
  weekdays : List Int
  periods : List Period
  exclude_dates : List String := []
  priority : Int := 0
  enabled : Bool := true
deriving DecidableEq, Repr

/-- The configuration; only rules matter to the decision engine. -/
structure Config where
  timezone : String := "Europe/Berlin"
  msk_timezone : String := "Europe/Moscow"
  rate_limit_per_second : Int := 4
  rate_limit_burst : Int := 4
  api_base : String := "https://advert-api.wildberries.ru"
  token_env : String := "WB_PROMO_TOKEN"
  rules : List Rule := []
deriving DecidableEq, Repr

/-- Campaign metadata consumed by target matching. -/
structure CampaignMeta where
  advert_id : Int
  name : String := ""
  tags : List String := []
  last_known_status : Option Int := none
  last_change_time : Option String := none
deriving DecidableEq, Repr

/-- The decision produced for one campaign in one evaluation cycle. -/
structure Decision where
  advert_id : Int
  desired : DesiredAction
  rule_name : String
  priority : Int
deriving DecidableEq, Repr

/-- Python str.startswith by code points: the candidate is a prefix of the
string (always true for the empty candidate). -/
def startswith (s p : String) : Bool :=
  List.isPrefixOf p.data s.data

/-- Lexicographic Bool comparison (less or equal) on code point lists,
exactly the order Python uses on strings. -/
def lexLeN : List Nat → List Nat → Bool
  | [], _ => true
  | _ :: _, [] => false
  | a :: as, b :: bs => decide (a < b) || (decide (a = b) && lexLeN as bs)

/-- The code points of a string, the value Python compares strings by. -/
def strCodes (s : String) : List Nat :=
  s.data.map Char.toNat

/-- The Python sort key of a candidate decision: (priority, rule_name),
with the name taken as its code point sequence. -/
def candKey (d : Decision) : Int × List Nat :=
  (d.priority, strCodes d.rule_name)

/-- Lexicographic less-or-equal on sort keys. -/
def keyLe (a b : Int × List Nat) : Bool :=
  decide (a.1 < b.1) || (decide (a.1 = b.1) && lexLeN a.2 b.2)

/-- Ordering used to model candidates.sort(key, reverse=True): d1 may come
before d2 exactly when the key of d1 is at least the key of d2. A stable
sort with this total preorder produces the same list as the Python stable
descending sort. -/
def candBefore (d1 d2 : Decision) : Prop :=
  keyLe (candKey d2) (candKey d1) = true

instance : DecidableRel candBefore :=
  fun d1 d2 => inferInstanceAs (Decidable (keyLe (candKey d2) (candKey d1) = true))

/-- The stable descending sort of the candidate list, modelling the Python
list.sort with key (priority, rule_name) and reverse=True. -/
def sortCandidates (l : List Decision) : List Decision :=
  l.insertionSort candBefore

namespace DecisionEngine

/-- Source DecisionEngine._date_in_excluded: some entry of exclude_dates
parses to the calendar date of now (entries that fail to parse are logged
and skipped). -/
def _date_in_excluded (dt : DateTime) (rule : Rule) : Bool :=
  rule.exclude_dates.any (fun s =>
    match parse_date_ymd s with
    | some d => decide (d = dateOf dt)
    | none => false)

/-- Source DecisionEngine._targets_match: dispatch on the target type
string; ids tests membership in (ids or empty), name_prefix tests
startswith against (name_prefix or empty string), tags tests non-disjoint
intersection of (tags or empty) with the campaign tags. -/
def _targets_match (c : CampaignMeta) (t : TargetSpec) : Bool :=
  if t.type = "ids" then
    (t.ids.getD []).contains c.advert_id
  else if t.type = "name_prefix" then
    startswith c.name (( TargetSpec.name_prefix t).getD "")
  else if t.type = "tags" then
    (t.tags.getD []).any (fun w => c.tags.contains w)
  else
    false

/-- Source DecisionEngine._period_match: false when the weekday is not in
the rule weekday list; otherwise the cross-midnight test when start > end,
else the plain half-open range test. -/
def _period_match (now_t : Dtime) (wd : Int) (period : Period) (rule_weekdays : List Int) : Bool :=
  if wd ∈ rule_weekdays then
    if is_cross_day period.start period.endT then
      time_in_crossday_range now_t period.start period.endT
    else
      time_in_range now_t period.start period.endT
  else
    false

/-- The candidates one rule contributes for one campaign inside decide:
nothing if the rule is disabled, its date is excluded, or its targets do
not match; otherwise one Decision per matching period. -/
def ruleCandidates (now_dt : DateTime) (c : CampaignMeta) (r : Rule) : List Decision :=
  if r.enabled then
    if _date_in_excluded now_dt r then
      []
    else if _targets_match c r.targets then
      r.periods.filterMap (fun p =>
        if _period_match (timeOfDay now_dt) (weekday_int now_dt) p r.weekdays then
          some ⟨c.advert_id, p.action, r.name, r.priority⟩
        else
          none)
    else
      []
  else
    []

/-- All candidates collected for one campaign, in rule order then period
order, exactly the append order of the source loop. -/
def candidatesFor (cfg : Config) (now_dt : DateTime) (c : CampaignMeta) : List Decision :=
  cfg.rules.flatMap (fun r => ruleCandidates now_dt c r)

/-- The per-campaign body of decide: sort the candidates descending by
(priority, rule_name) and keep the first, or nothing when no candidate. -/
def bestFor (cfg : Config) (now_dt : DateTime) (c : CampaignMeta) : Option Decision :=
  match sortCandidates (candidatesFor cfg now_dt c) with
  | [] => none
  | d :: _ => some d

/-- Source DecisionEngine.decide: one optional decision per campaign in
input order. -/
def decide (cfg : Config) (now_dt : DateTime) (campaigns : List CampaignMeta) : List Decision :=
  campaigns.filterMap (bestFor cfg now_dt)

/-- The idempotency map last_applied: advert_id to (desired, bucket); a
Python dict modelled as an association list with insert-or-replace. -/
def IdemMap : Type :=
  List (Int × (DesiredAction × MinuteBucket))

instance : DecidableEq IdemMap :=
  inferInstanceAs (DecidableEq (List (Int × (DesiredAction × MinuteBucket))))

/-- Dict lookup. -/
def lookupIdem : IdemMap → Int → Option (DesiredAction × MinuteBucket)
  | [], _ => none
  | (k, v) :: rest, key => if k = key then some v else lookupIdem rest key

/-- Dict assignment: replace the value at an existing key in place, else
append the new entry (Python insertion order). -/
def insertIdem : IdemMap → Int → (DesiredAction × MinuteBucket) → IdemMap
  | [], key, v => [(key, v)]
  | (k, w) :: rest, key, v =>
    if k = key then (key, v) :: rest else (k, w) :: insertIdem rest key v

/-- Source DecisionEngine.should_skip_idempotent: skip (true) when the
stored entry for the advert equals (desired, minute bucket of now),
leaving the map untouched; otherwise store (desired, bucket) and do not
skip. Returns the skip flag and the updated map. -/
def should_skip_idempotent (last_applied : IdemMap) (advert_id : Int)
    (desired : DesiredAction) (now_dt : DateTime) : Bool × IdemMap :=
  let bucket := minuteBucket now_dt
  match lookupIdem last_applied advert_id with
  | some last =>
    if last.1 = desired ∧ last.2 = bucket then
      (true, last_applied)
    else
      (false, insertIdem last_applied advert_id (desired, bucket))
  | none => (false, insertIdem last_applied advert_id (desired, bucket))

/-- The should_dispatch contract of the specification is the complement of
the skip flag of should_skip_idempotent, with the same map update. -/
def should_dispatch (last_applied : IdemMap) (advert_id : Int)
    (desired : DesiredAction) (now_dt : DateTime) : Bool × IdemMap :=
  let r := should_skip_idempotent last_applied advert_id desired now_dt
  (!r.1, r.2)

/-- A sequence of tracker calls threaded through the map, returning the
final map and the dispatch flag of every call in order. -/
def runCalls (st : IdemMap) : List (Int × DesiredAction × DateTime) → IdemMap × List Bool
  | [] => (st, [])
  | (id, a, t) :: rest =>
    let r := should_dispatch st id a t
    let cont := runCalls r.2 rest
    (cont.1, r.1 :: cont.2)

end DecisionEngine

/-- An HTTP response as this program reads it: status code and body text. -/
structure Response where
  status_code : Nat
  text : String
deriving DecidableEq, Repr

/-- Source WBClient._request (scheduler): a single session.request attempt;
a transport-level RequestException is re-raised as a RuntimeError with the
HTTP error prefix; any response object, whatever its status, is returned.
The attempt outcome is the argument. -/
def wb_request (outcome : Except String Response) : Except String Response :=
  match outcome with
  | Except.ok r => Except.ok r
  | Except.error e => Except.error ("HTTP error: " ++ e)

/-- Source WBClient.start, pause and stop share this shape: 200 maps to
(true, ok), any other status maps to (false, status and body). -/
def wb_status_call (outcome : Except String Response) : Except String (Bool × String) :=
  match wb_request outcome with
  | Except.ok resp =>
    if resp.status_code = 200 then
      Except.ok (true, "ok")
    else
      Except.ok (false, toString resp.status_code ++ " " ++ resp.text)
  | Except.error e => Except.error e

/-- The retry loop body of BidExecutor._request over the remaining attempt
indices of range(max_retries): a successful transport attempt returns the
response at once (whatever its status); a failed attempt on the last index
raises the exhausted-retries error; otherwise the loop sleeps two to the
attempt index seconds and retries. Returns the outcome together with the
list of sleep durations performed, in order. -/
def bid_request_go (f : Nat → Except String Response) (max_retries : Nat) :
    List Nat → Except String Response × List Nat
  | [] => (Except.error "请求失败", [])
  | attempt :: rest =>
    match f attempt with
    | Except.ok resp => (Except.ok resp, [])
    | Except.error e =>
      if attempt = max_retries - 1 then
        (Except.error ("API请求失败（已重试" ++ toString max_retries ++ "次）: " ++ e), [])
      else
        let r := bid_request_go f max_retries rest
        (r.1, 2 ^ attempt :: r.2)

/-- Source BidExecutor._request with its default max_retries, driven by an
oracle giving each transport attempt outcome. -/
def bid_request (f : Nat → Except String Response) (max_retries : Nat) :
    Except String Response × List Nat :=
  bid_request_go f max_retries (List.range max_retries)

/-- Source BidExecutor.update_bid result mapping: statuses 200, 201, 204
are success; any other response is an immediate HTTP failure; a raised
request error is caught and reported as a failure message. -/
def update_bid_result (r : Except String Response) : Bool × String :=
  match r with
  | Except.ok resp =>
    if resp.status_code = 200 ∨ resp.status_code = 201 ∨ resp.status_code = 204 then
      (true, "出价更新成功")
    else
      (false, "HTTP " ++ toString resp.status_code ++ ": " ++ resp.text)
  | Except.error e => (false, "更新出价异常: " ++ e)

/-- Source BidExecutor.update_bid composed with its default-retry request:
the returned flag and message, and the sleeps performed. -/
def update_bid (f : Nat → Except String Response) : (Bool × String) × List Nat :=
  let r := bid_request f 3
  (update_bid_result r.1, r.2)

/-- What one_cycle does with one decision, as reported to the log sink. -/
inductive CycleEvent where
  | skipped_idempotent
  | dry_run_log
  | api_success
  | api_failure (msg : String)
  | api_exception (msg : String)
deriving DecidableEq, Repr

/-- The event one_cycle emits for a dispatched decision given the client
call outcome: a raised exception is caught and logged, an (ok, msg) pair
is logged as success or failure. -/
def eventOf (out : Except String (Bool × String)) : CycleEvent :=
  match out with
  | Except.error e => CycleEvent.api_exception e
  | Except.ok (true, _) => CycleEvent.api_success
  | Except.ok (false, msg) => CycleEvent.api_failure msg

/-- The per-decision loop of main.one_cycle: the idempotency check always
runs first and always updates the tracker on a non-skip; dry-run continues
before any client call; otherwise the client outcome for the decision is
caught and logged, and the loop continues with the next decision. -/
def dispatch_loop (dry_run : Bool) (client : Decision → Except String (Bool × String))
    (now_dt : DateTime) :
    DecisionEngine.IdemMap → List Decision →
      DecisionEngine.IdemMap × List (Decision × CycleEvent)
  | st, [] => (st, [])
  | st, d :: rest =>
    let r := DecisionEngine.should_skip_idempotent st d.advert_id d.desired now_dt
    if r.1 then
      let cont := dispatch_loop dry_run client now_dt r.2 rest
      (cont.1, (d, CycleEvent.skipped_idempotent) :: cont.2)
    else if dry_run then
      let cont := dispatch_loop dry_run client now_dt r.2 rest
      (cont.1, (d, CycleEvent.dry_run_log) :: cont.2)
    else
      let cont := dispatch_loop dry_run client now_dt r.2 rest
      (cont.1, (d, eventOf (client d)) :: cont.2)

/-- The client-independent part of the loop: which decisions are skipped by
the idempotency tracker and how the tracker map evolves. -/
def idem_flags (now_dt : DateTime) :
    DecisionEngine.IdemMap → List Decision →
      DecisionEngine.IdemMap × List (Decision × Bool)
  | st, [] => (st, [])
  | st, d :: rest =>
    let r := DecisionEngine.should_skip_idempotent st d.advert_id d.desired now_dt
    let cont := idem_flags now_dt r.2 rest
    (cont.1, (d, r.1) :: cont.2)

/-- Source main.one_cycle: evaluate the rules at now, then run the dispatch
loop over the decisions with the current tracker state. -/
def one_cycle (dry_run : Bool) (client : Decision → Except String (Bool × String))
    (cfg : Config) (campaigns : List CampaignMeta) (now_dt : DateTime)
    (st : DecisionEngine.IdemMap) :
    DecisionEngine.IdemMap × List (Decision × CycleEvent) :=
  dispatch_loop dry_run client now_dt st (DecisionEngine.decide cfg now_dt campaigns)

/-- Rule A of end-to-end scenario B: priority 50, cross-midnight window
22:00 to 06:00, Suspend. -/
def ruleA_b : Rule :=
  { name := "Rule A", targets := { type := "ids", ids := some [7] },
    weekdays := [5], periods := [⟨⟨22, 0, 0⟩, ⟨6, 0, 0⟩, DesiredAction.pause⟩],
    priority := 50 }

/-- Rule B of end-to-end scenario B: priority 200, window 23:00 to 23:01,
Activate. -/
def ruleB_b : Rule :=
  { name := "Rule B", targets := { type := "ids", ids := some [7] },
    weekdays := [5], periods := [⟨⟨23, 0, 0⟩, ⟨23, 1, 0⟩, DesiredAction.start⟩],
    priority := 200 }

/-- Configuration holding the two scenario-B rules, Rule A first. -/
def cfg_b : Config :=
  { rules := [ruleA_b, ruleB_b] }

/-- Friday 2025-06-06 at 23:00:30 (Python weekday 4, so weekday number 5). -/
def now_b : DateTime :=
  ⟨2025, 6, 6, 23, 0, 30, 4⟩

/-- The campaign with resource id 7 of scenario B. -/
def camp_b : CampaignMeta :=
  { advert_id := 7 }

/-- A rule listing only Friday with a cross-midnight 22:00 to 02:00 window. -/
def rule_fri : Rule :=
  { name := "Friday night", targets := { type := "ids", ids := some [1] },
    weekdays := [5], periods := [⟨⟨22, 0, 0⟩, ⟨2, 0, 0⟩, DesiredAction.pause⟩],
    priority := 10 }

/-- Configuration holding only the Friday-tagged cross-midnight rule. -/
def cfg_fri : Config :=
  { rules := [rule_fri] }

/-- Saturday 2025-06-07 at 01:00:00 (Python weekday 5, weekday number 6). -/
def now_sat : DateTime :=
  ⟨2025, 6, 7, 1, 0, 0, 5⟩

/-- The campaign with resource id 1 targeted by the Friday rule. -/
def camp_fri : CampaignMeta :=
  { advert_id := 1 }

/-- A disabled rule used to instantiate the inert-rule edge case. -/
def rule_disabled : Rule :=
  { name := "Disabled", targets := { type := "ids", ids := some [1] },
    weekdays := [1, 2, 3, 4, 5, 6, 7],
    periods := [⟨⟨0, 0, 0⟩, ⟨23, 59, 0⟩, DesiredAction.start⟩],
    priority := 5, enabled := false }

/-- An instant inside one idempotency minute bucket. -/
def t_bucket0 : DateTime :=
  ⟨2025, 6, 6, 10, 0, 5, 4⟩

/-- A later instant in the same minute bucket as t_bucket0. -/
def t_bucket0' : DateTime :=
  ⟨2025, 6, 6, 10, 0, 40, 4⟩

/-- An instant in the following minute bucket. -/
def t_bucket1 : DateTime :=
  ⟨2025, 6, 6, 10, 1, 5, 4⟩

/-- Three tracker calls inside one minute bucket alternating the action:
start, then pause, then start again, all for resource 1. -/
def calls_aba : List (Int × DesiredAction × DateTime) :=
  [(1, DesiredAction.start, t_bucket0),
   (1, DesiredAction.pause, t_bucket0'),
   (1, DesiredAction.start, ⟨2025, 6, 6, 10, 0, 50, 4⟩)]

/-- An attempt oracle whose first transport attempt fails and whose second
succeeds with status 200. -/
def f_retry_once : Nat → Except String Response :=
  fun k => if k = 0 then Except.error "timeout" else Except.ok ⟨200, "ok"⟩

/-- A client whose every call returns success. -/
def okClient : Decision → Except String (Bool × String) :=
  fun _ => Except.ok (true, "ok")

/-- A client that fails exactly on one given decision and succeeds on all
others. -/
def failOn (d0 : Decision) : Decision → Except String (Bool × String) :=
  fun d => if d = d0 then Except.error "boom" else Except.ok (true, "ok")

/-- The scenario-B winning decision. -/
def decisionB : Decision :=
  ⟨7, DesiredAction.start, "Rule B", 200⟩

theorem dtime_eq_iff (a b : Dtime) :
    a = b ↔ a.hour = b.hour ∧ a.minute = b.minute ∧ a.second = b.second := by
  cases a
  cases b
  simp

theorem time_lt_iff (a b : Dtime) :
    time_lt a b = true ↔
      a.hour < b.hour ∨ (a.hour = b.hour ∧
        (a.minute < b.minute ∨ (a.minute = b.minute ∧ a.second < b.second))) := by
  simp [time_lt]

theorem time_le_eq_not_lt (a b : Dtime) : time_le a b = !time_lt b a := by
  rw [Bool.eq_iff_iff]
  simp only [time_le, time_lt, Bool.or_eq_true, Bool.and_eq_true,
    decide_eq_true_eq, Bool.not_eq_true', Bool.or_eq_false_iff,
    Bool.and_eq_false_iff, decide_eq_false_iff_not, dtime_eq_iff]
  omega

theorem time_le_refl (a : Dtime) : time_le a a = true := by
  simp [time_le]

theorem lexLeN_refl (l : List Nat) : lexLeN l l = true := by
  induction l with
  | nil => rfl
  | cons x xs ih => simp [lexLeN, ih]

theorem lexLeN_total (a b : List Nat) : lexLeN a b = true ∨ lexLeN b a = true := by
  induction a generalizing b with
  | nil => left; rfl
  | cons x xs ih =>
    cases b with
    | nil => right; rfl
    | cons y ys =>
      rcases Nat.lt_trichotomy x y with h | h | h
      · left; simp [lexLeN, h]
      · subst h
        rcases ih ys with h2 | h2
        · left; simp [lexLeN, h2]
        · right; simp [lexLeN, h2]
      · right; simp [lexLeN, h]

theorem lexLeN_trans (a b c : List Nat) :
    lexLeN a b = true → lexLeN b c = true → lexLeN a c = true := by
  induction a generalizing b c with
  | nil => intro _ _; rfl
  | cons x xs ih =>
    cases b with
    | nil => intro h _; simp [lexLeN] at h
    | cons y ys =>
      cases c with
      | nil => intro _ h; simp [lexLeN] at h
      | cons z zs =>
        simp only [lexLeN, Bool.or_eq_true, Bool.and_eq_true, decide_eq_true_eq]
        rintro (h1 | ⟨he1, hr1⟩) (h2 | ⟨he2, hr2⟩)
        · left; omega
        · left; omega
        · left; omega
        · right; exact ⟨by omega, ih ys zs hr1 hr2⟩

theorem keyLe_refl (a : Int × List Nat) : keyLe a a = true := by
  simp [keyLe, lexLeN_refl]

theorem keyLe_total (a b : Int × List Nat) : keyLe a b = true ∨ keyLe b a = true := by
  simp only [keyLe, Bool.or_eq_true, Bool.and_eq_true, decide_eq_true_eq]
  rcases lt_trichotomy a.1 b.1 with h | h | h
  · exact Or.inl (Or.inl h)
  · rcases lexLeN_total a.2 b.2 with h2 | h2
    · exact Or.inl (Or.inr ⟨h, h2⟩)
    · exact Or.inr (Or.inr ⟨h.symm, h2⟩)
  · exact Or.inr (Or.inl h)

theorem keyLe_trans (a b c : Int × List Nat) :
    keyLe a b = true → keyLe b c = true → keyLe a c = true := by
  simp only [keyLe, Bool.or_eq_true, Bool.and_eq_true, decide_eq_true_eq]
  rintro (h1 | ⟨he1, hr1⟩) (h2 | ⟨he2, hr2⟩)
  · left; omega
  · left; omega
  · left; omega
  · right; exact ⟨by omega, lexLeN_trans _ _ _ hr1 hr2⟩

theorem candBefore_refl (d : Decision) : candBefore d d :=
  keyLe_refl _

theorem bestFor_mem_and_max (cfg : Config) (now_dt : DateTime) (c : CampaignMeta)
    (d : Decision) (h : DecisionEngine.bestFor cfg now_dt c = some d) :
    d ∈ DecisionEngine.candidatesFor cfg now_dt c ∧
      ∀ d' ∈ DecisionEngine.candidatesFor cfg now_dt c, candBefore d d' := by
  haveI : IsTotal Decision candBefore := ⟨fun a b => keyLe_total (candKey b) (candKey a)⟩
  haveI : IsTrans Decision candBefore :=
    ⟨fun a b c hab hbc => keyLe_trans (candKey c) (candKey b) (candKey a) hbc hab⟩
  unfold DecisionEngine.bestFor at h
  cases hs : sortCandidates (DecisionEngine.candidatesFor cfg now_dt c) with
  | nil => rw [hs] at h; simp at h
  | cons hd tl =>
    rw [hs] at h
    have hd_eq : hd = d := by simpa using h
    subst hd_eq
    have hperm : (sortCandidates (DecisionEngine.candidatesFor cfg now_dt c)).Perm
        (DecisionEngine.candidatesFor cfg now_dt c) :=
      List.perm_insertionSort candBefore _
    have hsorted : List.Sorted candBefore
        (sortCandidates (DecisionEngine.candidatesFor cfg now_dt c)) :=
      List.sorted_insertionSort candBefore _
    rw [hs] at hsorted
    constructor
    · have hmem : hd ∈ sortCandidates (DecisionEngine.candidatesFor cfg now_dt c) := by
        rw [hs]; exact List.mem_cons_self _ _
      exact hperm.mem_iff.mp hmem
    · intro d' hd'
      have hmem : d' ∈ hd :: tl := by
        rw [← hs]; exact hperm.mem_iff.mpr hd'
      rcases List.mem_cons.mp hmem with h' | h'
      · subst h'; exact candBefore_refl _
      · exact List.rel_of_sorted_cons hsorted d' h'

theorem candidatesFor_advert_id (cfg : Config) (now_dt : DateTime) (c : CampaignMeta)
    (d : Decision) (h : d ∈ DecisionEngine.candidatesFor cfg now_dt c) :
    d.advert_id = c.advert_id := by
  unfold DecisionEngine.candidatesFor at h
  rw [List.mem_flatMap] at h
  obtain ⟨r, _, hd⟩ := h
  unfold DecisionEngine.ruleCandidates at hd
  split at hd
  · split at hd
    · simp at hd
    · split at hd
      · rw [List.mem_filterMap] at hd
        obtain ⟨p, _, hpe⟩ := hd
        split at hpe
        · cases hpe; rfl
        · simp at hpe
      · simp at hd
  · simp at hd

theorem decide_countP_le (cfg : Config) (now_dt : DateTime)
    (campaigns : List CampaignMeta) (i : Int) :
    (DecisionEngine.decide cfg now_dt campaigns).countP (fun d => d.advert_id == i) ≤
      campaigns.countP (fun c => c.advert_id == i) := by
  induction campaigns with
  | nil => simp [DecisionEngine.decide]
  | cons c cs ih =>
    unfold DecisionEngine.decide at ih ⊢
    rw [List.filterMap_cons]
    cases hb : DecisionEngine.bestFor cfg now_dt c with
    | none =>
      simp only [List.countP_cons]
      omega
    | some d =>
      have hid : d.advert_id = c.advert_id :=
        candidatesFor_advert_id cfg now_dt c d (bestFor_mem_and_max cfg now_dt c d hb).1
      simp only [List.countP_cons, hid]
      omega

theorem time_lt_irrefl (a : Dtime) : time_lt a a = false := by
  simp [time_lt]

/-- Claim C1: decide produces at most one Decision per resource of the
input list (counted per resource id); the decision chosen for a campaign
is one of its candidates and its (priority, rule name) sort key is at
least the key of every candidate, so a higher numeric priority always wins
and among equal priorities the lexicographically greater rule name wins; a
campaign with a non-empty candidate list does get a decision; and in
scenario B, with Rule A (priority 50, 22:00 to 06:00, Suspend) and
Rule B (priority 200, 23:00 to 23:01, Activate) both matching at 23:00:30,
the decision is Rule B Activate. -/
theorem claim1_decide_priority_resolution :
    (∀ (cfg : Config) (now_dt : DateTime) (campaigns : List CampaignMeta) (i : Int),
      (DecisionEngine.decide cfg now_dt campaigns).countP (fun d => d.advert_id == i) ≤
        campaigns.countP (fun c => c.advert_id == i)) ∧
    (∀ (cfg : Config) (now_dt : DateTime) (c : CampaignMeta) (d : Decision),
      DecisionEngine.bestFor cfg now_dt c = some d →
        d ∈ DecisionEngine.candidatesFor cfg now_dt c ∧
          ∀ d' ∈ DecisionEngine.candidatesFor cfg now_dt c,
            keyLe (candKey d') (candKey d) = true) ∧
    (∀ (cfg : Config) (now_dt : DateTime) (c : CampaignMeta),
      DecisionEngine.candidatesFor cfg now_dt c ≠ [] →
        ∃ d, DecisionEngine.bestFor cfg now_dt c = some d) ∧
    DecisionEngine.decide cfg_b now_b [camp_b] =
      [⟨7, DesiredAction.start, "Rule B", 200⟩] := by
  refine ⟨decide_countP_le, ?_, ?_, by decide⟩
  · intro cfg now_dt c d h
    exact bestFor_mem_and_max cfg now_dt c d h
  · intro cfg now_dt c hne
    unfold DecisionEngine.bestFor
    cases hs : sortCandidates (DecisionEngine.candidatesFor cfg now_dt c) with
    | nil =>
      have hperm : (sortCandidates (DecisionEngine.candidatesFor cfg now_dt c)).Perm
          (DecisionEngine.candidatesFor cfg now_dt c) :=
        List.perm_insertionSort candBefore _
      rw [hs] at hperm
      exact absurd hperm.symm.eq_nil hne
    | cons hd tl => exact ⟨hd, rfl⟩

/-- Witness for claim C1: in scenario B the decision Rule B Activate is a
candidate for campaign 7 and its key dominates every candidate key. -/
theorem claim1_witness :
    (⟨7, DesiredAction.start, "Rule B", 200⟩ : Decision) ∈
        DecisionEngine.candidatesFor cfg_b now_b camp_b ∧
      ∀ d' ∈ DecisionEngine.candidatesFor cfg_b now_b camp_b,
        keyLe (candKey d') (candKey ⟨7, DesiredAction.start, "Rule B", 200⟩) = true :=
  claim1_decide_priority_resolution.2.1 cfg_b now_b camp_b _ (by decide)

/-- Claim C2: with the weekday gate satisfied, a period with start <= end
matches exactly the half-open interval start <= now < end (start matches,
end does not), a zero-width period with start = end never matches, and a
cross-midnight period with start > end matches exactly when now >= start
or now < end. -/
theorem claim2_period_time_match :
    ∀ (now_t : Dtime) (wd : Int) (p : Period) (wds : List Int), wd ∈ wds →
      (DecisionEngine._period_match now_t wd p wds = true ↔
        (if time_le p.start p.endT = true then
          time_le p.start now_t = true ∧ time_lt now_t p.endT = true
        else
          time_le p.start now_t = true ∨ time_lt now_t p.endT = true)) ∧
      (p.start = p.endT → DecisionEngine._period_match now_t wd p wds = false) := by
  intro now_t wd p wds hwd
  constructor
  · cases hlt : time_lt p.endT p.start <;>
      simp [DecisionEngine._period_match, hwd, is_cross_day, time_in_range,
        time_in_crossday_range, time_le_eq_not_lt, hlt]
  · intro he
    have hcd : is_cross_day p.start p.endT = false := by
      rw [is_cross_day, he]
      exact time_lt_irrefl _
    simp only [DecisionEngine._period_match, if_pos hwd]
    rw [if_neg (by rw [hcd]; simp)]
    rw [time_in_range, he, time_le_eq_not_lt]
    cases time_lt now_t p.endT <;> simp

/-- Witness for claim C2: the 23:00 to 23:01 period at 23:00:30 on an
listed weekday, instantiating both conjuncts. -/
theorem claim2_witness :
    (DecisionEngine._period_match ⟨23, 0, 30⟩ 5
          ⟨⟨23, 0, 0⟩, ⟨23, 1, 0⟩, DesiredAction.start⟩ [5] = true ↔
        (if time_le ⟨23, 0, 0⟩ ⟨23, 1, 0⟩ = true then
          time_le ⟨23, 0, 0⟩ ⟨23, 0, 30⟩ = true ∧ time_lt ⟨23, 0, 30⟩ ⟨23, 1, 0⟩ = true
        else
          time_le ⟨23, 0, 0⟩ ⟨23, 0, 30⟩ = true ∨ time_lt ⟨23, 0, 30⟩ ⟨23, 1, 0⟩ = true)) ∧
      ((⟨23, 0, 0⟩ : Dtime) = ⟨23, 1, 0⟩ →
        DecisionEngine._period_match ⟨23, 0, 30⟩ 5
          ⟨⟨23, 0, 0⟩, ⟨23, 1, 0⟩, DesiredAction.start⟩ [5] = false) :=
  claim2_period_time_match ⟨23, 0, 30⟩ 5 ⟨⟨23, 0, 0⟩, ⟨23, 1, 0⟩, DesiredAction.start⟩ [5]
    (by decide)

/-- Claim C6: a period contributes only when the weekday of the instant is
in the rule weekday list, and the cross-midnight case does not shift the
weekday: the Friday-only 22:00 to 02:00 rule yields no decision at
Saturday 01:00. -/
theorem claim6_weekday_not_shifted :
    (∀ (now_t : Dtime) (wd : Int) (p : Period) (wds : List Int),
      wd ∉ wds → DecisionEngine._period_match now_t wd p wds = false) ∧
    DecisionEngine.decide cfg_fri now_sat [camp_fri] = [] := by
  refine ⟨?_, by decide⟩
  intro now_t wd p wds h
  simp [DecisionEngine._period_match, h]

/-- Witness for claim C6: Saturday (weekday 6) is not Friday (the only
listed weekday 5), so the cross-midnight period does not match at 01:00. -/
theorem claim6_witness :
    DecisionEngine._period_match ⟨1, 0, 0⟩ 6
      ⟨⟨22, 0, 0⟩, ⟨2, 0, 0⟩, DesiredAction.pause⟩ [5] = false :=
  claim6_weekday_not_shifted.1 ⟨1, 0, 0⟩ 6
    ⟨⟨22, 0, 0⟩, ⟨2, 0, 0⟩, DesiredAction.pause⟩ [5] (by decide)

/-- Claim C7: an empty resource list gives an empty decision list; a rule
that is disabled, or whose exclude_dates contain the calendar date of now,
or whose weekday list is empty, or whose period list is empty contributes
no candidate; and a campaign with no candidates produces no decision at
all, decide being exactly the per-campaign filterMap of bestFor. -/
theorem claim7_edge_cases :
    (∀ (cfg : Config) (now_dt : DateTime), DecisionEngine.decide cfg now_dt [] = []) ∧
    (∀ (now_dt : DateTime) (c : CampaignMeta) (r : Rule),
      (r.enabled = false ∨ (∃ s ∈ r.exclude_dates, parse_date_ymd s = some (dateOf now_dt)) ∨
          r.weekdays = [] ∨ r.periods = []) →
        DecisionEngine.ruleCandidates now_dt c r = []) ∧
    (∀ (cfg : Config) (now_dt : DateTime) (c : CampaignMeta),
      DecisionEngine.candidatesFor cfg now_dt c = [] →
        DecisionEngine.bestFor cfg now_dt c = none) ∧
    (∀ (cfg : Config) (now_dt : DateTime) (campaigns : List CampaignMeta),
      DecisionEngine.decide cfg now_dt campaigns =
        campaigns.filterMap (DecisionEngine.bestFor cfg now_dt)) := by
  refine ⟨fun _ _ => rfl, ?_, ?_, fun _ _ _ => rfl⟩
  · intro now_dt c r h
    rcases h with he | ⟨s, hs, hp⟩ | hw | hp
    · simp [DecisionEngine.ruleCandidates, he]
    · have hex : DecisionEngine._date_in_excluded now_dt r = true := by
        unfold DecisionEngine._date_in_excluded
        rw [List.any_eq_true]
        exact ⟨s, hs, by rw [hp]; simp⟩
      simp [DecisionEngine.ruleCandidates, hex]
    · have hm : ∀ p, DecisionEngine._period_match (timeOfDay now_dt)
          (weekday_int now_dt) p r.weekdays = false := by
        intro p
        simp [DecisionEngine._period_match, hw]
      unfold DecisionEngine.ruleCandidates
      have hfm : r.periods.filterMap (fun p =>
          if DecisionEngine._period_match (timeOfDay now_dt)
              (weekday_int now_dt) p r.weekdays then
            some (Decision.mk c.advert_id p.action r.name r.priority)
          else
            none) = [] := by
        rw [List.filterMap_eq_nil_iff]
        intro p _
        simp [hm p]
      rw [hfm]
      simp
    · simp [DecisionEngine.ruleCandidates, hp]
  · intro cfg now_dt c h
    simp [DecisionEngine.bestFor, h, sortCandidates]

/-- Witness for claim C7: the disabled rule contributes no candidate. -/
theorem claim7_witness :
    DecisionEngine.ruleCandidates now_b camp_fri rule_disabled = [] :=
  claim7_edge_cases.2.1 now_b camp_fri rule_disabled (Or.inl rfl)

/-- Claim C10: empty target selectors are asymmetric: a name_prefix target
with an absent or empty string matches every campaign, while an ids target
with an absent or empty id list and a tags target with an absent or empty
tag list match no campaign. -/
theorem claim10_empty_target_asymmetry :
    (∀ (c : CampaignMeta) (i : Option (List Int)) (tg : Option (List String)),
      DecisionEngine._targets_match c ⟨"name_prefix", i, none, tg⟩ = true) ∧
    (∀ (c : CampaignMeta) (i : Option (List Int)) (tg : Option (List String)),
      DecisionEngine._targets_match c ⟨"name_prefix", i, some "", tg⟩ = true) ∧
    (∀ (c : CampaignMeta) (np : Option String) (tg : Option (List String)),
      DecisionEngine._targets_match c ⟨"ids", none, np, tg⟩ = false) ∧
    (∀ (c : CampaignMeta) (np : Option String) (tg : Option (List String)),
      DecisionEngine._targets_match c ⟨"ids", some [], np, tg⟩ = false) ∧
    (∀ (c : CampaignMeta) (i : Option (List Int)) (np : Option String),
      DecisionEngine._targets_match c ⟨"tags", i, np, none⟩ = false) ∧
    (∀ (c : CampaignMeta) (i : Option (List Int)) (np : Option String),
      DecisionEngine._targets_match c ⟨"tags", i, np, some []⟩ = false) := by
  refine ⟨?_, ?_, ?_, ?_, ?_, ?_⟩ <;>
    intro c x y <;>
    simp [DecisionEngine._targets_match, startswith, List.isPrefixOf]

theorem lookupIdem_insertIdem (st : DecisionEngine.IdemMap) (id : Int)
    (v : DesiredAction × MinuteBucket) :
    DecisionEngine.lookupIdem (DecisionEngine.insertIdem st id v) id = some v := by
  induction st with
  | nil => simp [DecisionEngine.insertIdem, DecisionEngine.lookupIdem]
  | cons kv rest ih =>
    obtain ⟨k, w⟩ := kv
    by_cases h : k = id
    · simp [DecisionEngine.insertIdem, DecisionEngine.lookupIdem, h]
    · simp [DecisionEngine.insertIdem, DecisionEngine.lookupIdem, h, ih]

theorem should_dispatch_of_ne (st : DecisionEngine.IdemMap) (id : Int)
    (a : DesiredAction) (t : DateTime)
    (h : DecisionEngine.lookupIdem st id ≠ some (a, minuteBucket t)) :
    DecisionEngine.should_dispatch st id a t =
      (true, DecisionEngine.insertIdem st id (a, minuteBucket t)) := by
  unfold DecisionEngine.should_dispatch DecisionEngine.should_skip_idempotent
  cases hlk : DecisionEngine.lookupIdem st id with
  | none => simp [hlk]
  | some last =>
    obtain ⟨la, lb⟩ := last
    have hc : ¬(la = a ∧ lb = minuteBucket t) := by
      rintro ⟨h1, h2⟩
      subst h1
      subst h2
      exact h hlk
    simp [hlk, hc]

theorem should_dispatch_of_eq (st : DecisionEngine.IdemMap) (id : Int)
    (a : DesiredAction) (t : DateTime)
    (h : DecisionEngine.lookupIdem st id = some (a, minuteBucket t)) :
    DecisionEngine.should_dispatch st id a t = (false, st) := by
  unfold DecisionEngine.should_dispatch DecisionEngine.should_skip_idempotent
  simp [h]

theorem lookupIdem_after_dispatch (st : DecisionEngine.IdemMap) (id : Int)
    (a : DesiredAction) (t : DateTime) :
    DecisionEngine.lookupIdem (DecisionEngine.should_dispatch st id a t).2 id =
      some (a, minuteBucket t) := by
  by_cases h : DecisionEngine.lookupIdem st id = some (a, minuteBucket t)
  · rw [should_dispatch_of_eq st id a t h]
    exact h
  · rw [should_dispatch_of_ne st id a t h]
    exact lookupIdem_insertIdem st id (a, minuteBucket t)

theorem insertIdem_ne_self (st : DecisionEngine.IdemMap) (id : Int)
    (v : DesiredAction × MinuteBucket)
    (h : DecisionEngine.lookupIdem st id ≠ some v) :
    DecisionEngine.insertIdem st id v ≠ st := by
  intro heq
  apply h
  rw [← heq]
  exact lookupIdem_insertIdem st id v

/-- Claim C3: the tracker buckets time to the whole minute; with no stored
entry a call dispatches (true) and stores (action, bucket); a second call
with the same action in the same bucket skips (false) and leaves the map
unchanged; any call whose (action, bucket) differs from the stored entry
dispatches and overwrites it; and the map changes exactly on dispatching
calls. -/
theorem claim3_tracker_contract :
    (∀ (st : DecisionEngine.IdemMap) (id : Int) (a : DesiredAction) (t : DateTime),
      DecisionEngine.lookupIdem st id = none →
        DecisionEngine.should_dispatch st id a t =
          (true, DecisionEngine.insertIdem st id (a, minuteBucket t))) ∧
    (∀ (st : DecisionEngine.IdemMap) (id : Int) (a : DesiredAction) (t1 t2 : DateTime),
      minuteBucket t2 = minuteBucket t1 →
        DecisionEngine.should_dispatch (DecisionEngine.should_dispatch st id a t1).2 id a t2 =
          (false, (DecisionEngine.should_dispatch st id a t1).2)) ∧
    (∀ (st : DecisionEngine.IdemMap) (id : Int) (a : DesiredAction) (t : DateTime),
      DecisionEngine.lookupIdem st id ≠ some (a, minuteBucket t) →
        DecisionEngine.should_dispatch st id a t =
          (true, DecisionEngine.insertIdem st id (a, minuteBucket t))) ∧
    (∀ (st : DecisionEngine.IdemMap) (id : Int) (a : DesiredAction) (t : DateTime),
      (DecisionEngine.should_dispatch st id a t).2 ≠ st ↔
        (DecisionEngine.should_dispatch st id a t).1 = true) := by
  refine ⟨?_, ?_, should_dispatch_of_ne, ?_⟩
  · intro st id a t h
    exact should_dispatch_of_ne st id a t (by rw [h]; exact fun h' => Option.noConfusion h')
  · intro st id a t1 t2 ht
    have hlk : DecisionEngine.lookupIdem (DecisionEngine.should_dispatch st id a t1).2 id =
        some (a, minuteBucket t2) := by
      rw [ht]
      exact lookupIdem_after_dispatch st id a t1
    exact should_dispatch_of_eq _ id a t2 hlk
  · intro st id a t
    by_cases h : DecisionEngine.lookupIdem st id = some (a, minuteBucket t)
    · rw [should_dispatch_of_eq st id a t h]
      simp
    · rw [should_dispatch_of_ne st id a t h]
      simp [insertIdem_ne_self st id (a, minuteBucket t) h]

/-- Witness for claim C3: the first call on an empty tracker dispatches
and stores the action with the minute bucket. -/
theorem claim3_witness :
    DecisionEngine.should_dispatch [] 1 DesiredAction.start t_bucket0 =
      (true, DecisionEngine.insertIdem [] 1 (DesiredAction.start, minuteBucket t_bucket0)) :=
  claim3_tracker_contract.1 [] 1 DesiredAction.start t_bucket0 rfl

theorem count_true_map_const_false (l : List (Int × DesiredAction × DateTime)) :
    (l.map (fun _ => false)).count true = 0 := by
  simp [List.count_replicate]

theorem runCalls_all_skip (id : Int) (a : DesiredAction) (b : MinuteBucket) :
    ∀ (calls : List (Int × DesiredAction × DateTime)) (st : DecisionEngine.IdemMap),
      DecisionEngine.lookupIdem st id = some (a, b) →
      (∀ x ∈ calls, x.1 = id ∧ x.2.1 = a ∧ minuteBucket x.2.2 = b) →
      DecisionEngine.runCalls st calls = (st, calls.map (fun _ => false)) := by
  intro calls
  induction calls with
  | nil => intro st _ _; rfl
  | cons x rest ih =>
    intro st hlk hall
    obtain ⟨i, a', t⟩ := x
    obtain ⟨hid, ha, hb⟩ := hall (i, a', t) (List.mem_cons_self _ _)
    dsimp only at hid ha hb
    subst hid
    subst ha
    have hsd : DecisionEngine.should_dispatch st i a' t = (false, st) :=
      should_dispatch_of_eq st i a' t (by rw [hb]; exact hlk)
    have hrest := ih st hlk (fun y hy => hall y (List.mem_cons_of_mem _ hy))
    simp [DecisionEngine.runCalls, hsd, hrest]

/-- Claim C4 amended: for every sequence of tracker calls for one resource
that all request the same action and whose times fall in the same minute
bucket, at most one call dispatches; the counterexample shows the original
per-distinct-action bound fails when different actions interleave within
the minute. -/
theorem claim4_same_action_per_minute :
    ∀ (st : DecisionEngine.IdemMap) (calls : List (Int × DesiredAction × DateTime))
      (id : Int) (a : DesiredAction) (b : MinuteBucket),
      (∀ x ∈ calls, x.1 = id ∧ x.2.1 = a ∧ minuteBucket x.2.2 = b) →
      (DecisionEngine.runCalls st calls).2.count true ≤ 1 := by
  intro st calls id a b hall
  cases calls with
  | nil => simp [DecisionEngine.runCalls]
  | cons x rest =>
    obtain ⟨i, a', t⟩ := x
    obtain ⟨hid, ha, hb⟩ := hall (i, a', t) (List.mem_cons_self _ _)
    dsimp only at hid ha hb
    subst hid
    subst ha
    subst hb
    have hrestall : ∀ y ∈ rest, y.1 = i ∧ y.2.1 = a' ∧ minuteBucket y.2.2 = minuteBucket t :=
      fun y hy => hall y (List.mem_cons_of_mem _ hy)
    by_cases hlk : DecisionEngine.lookupIdem st i = some (a', minuteBucket t)
    · have h1 := runCalls_all_skip i a' (minuteBucket t) ((i, a', t) :: rest) st hlk hall
      rw [h1]
      simp [List.count_replicate]
    · have hsd := should_dispatch_of_ne st i a' t hlk
      have hlk2 : DecisionEngine.lookupIdem
          (DecisionEngine.insertIdem st i (a', minuteBucket t)) i =
            some (a', minuteBucket t) :=
        lookupIdem_insertIdem st i (a', minuteBucket t)
      have hrest := runCalls_all_skip i a' (minuteBucket t) rest
        (DecisionEngine.insertIdem st i (a', minuteBucket t)) hlk2 hrestall
      simp [DecisionEngine.runCalls, hsd, hrest, List.count_cons,
        List.count_replicate]

/-- Witness for claim C4: two same-action calls in one minute dispatch at
most once. -/
theorem claim4_witness :
    (DecisionEngine.runCalls []
        [(1, DesiredAction.start, t_bucket0),
         (1, DesiredAction.start, t_bucket0')]).2.count true ≤ 1 :=
  claim4_same_action_per_minute []
    [(1, DesiredAction.start, t_bucket0), (1, DesiredAction.start, t_bucket0')]
    1 DesiredAction.start (minuteBucket t_bucket0) (by decide)

/-- Counterexample for claim C4 as stated: three calls for resource 1 in
the same minute bucket requesting start, pause, start all dispatch, so the
action start is dispatched twice within one minute, not at most once per
distinct action. -/
theorem claim4_counterexample :
    (calls_aba.all (fun x => decide (x.1 = 1) &&
        decide (minuteBucket x.2.2 = minuteBucket t_bucket0)) = true) ∧
    (DecisionEngine.runCalls [] calls_aba).2 = [true, true, true] ∧
    ((calls_aba.zip (DecisionEngine.runCalls [] calls_aba).2).countP
        (fun p => p.2 && decide (p.1.2.1 = DesiredAction.start))) = 2 ∧
    ¬ ((calls_aba.zip (DecisionEngine.runCalls [] calls_aba).2).countP
        (fun p => p.2 && decide (p.1.2.1 = DesiredAction.start)) ≤ 1) := by
  decide

/-- Claim C5 amended: in the SmartBid executor, a transport failure is
retried with exponential backoff up to the fixed ceiling of 3 attempts,
the delays slept being 1s then 2s (2 to the attempt index; no delay
follows the final attempt, so no 4s delay occurs at the default ceiling),
and only after exhausting the attempts is the error surfaced; any HTTP
response, 2xx or not, is returned after a single attempt with no transport
retry, a non-2xx response being reported to the caller as an immediate
failure; the scheduler WBClient makes no transport retries at all: its
single attempt surfaces a transport error immediately, and its status
calls report a non-200 response as a failed call. -/
theorem claim5_retry_and_http :
    (∀ (f : Nat → Except String Response) (e0 e1 e2 : String),
      f 0 = Except.error e0 → f 1 = Except.error e1 → f 2 = Except.error e2 →
        bid_request f 3 =
          (Except.error ("API请求失败（已重试" ++ toString 3 ++ "次）: " ++ e2), [1, 2])) ∧
    (∀ (f : Nat → Except String Response) (e0 : String) (resp : Response),
      f 0 = Except.error e0 → f 1 = Except.ok resp →
        bid_request f 3 = (Except.ok resp, [1])) ∧
    (∀ (f : Nat → Except String Response) (resp : Response),
      f 0 = Except.ok resp → bid_request f 3 = (Except.ok resp, [])) ∧
    (∀ (f : Nat → Except String Response) (resp : Response),
      f 0 = Except.ok resp → resp.status_code ≠ 200 → resp.status_code ≠ 201 →
        resp.status_code ≠ 204 →
          update_bid f =
            ((false, "HTTP " ++ toString resp.status_code ++ ": " ++ resp.text), [])) ∧
    (∀ e : String, wb_request (Except.error e) = Except.error ("HTTP error: " ++ e)) ∧
    (∀ resp : Response, resp.status_code ≠ 200 →
      wb_status_call (Except.ok resp) =
        Except.ok (false, toString resp.status_code ++ " " ++ resp.text)) := by
  have hr3 : List.range 3 = [0, 1, 2] := rfl
  refine ⟨?_, ?_, ?_, ?_, fun e => rfl, ?_⟩
  · intro f e0 e1 e2 h0 h1 h2
    unfold bid_request
    rw [hr3]
    simp [bid_request_go, h0, h1, h2]
  · intro f e0 resp h0 h1
    unfold bid_request
    rw [hr3]
    simp [bid_request_go, h0, h1]
  · intro f resp h0
    unfold bid_request
    rw [hr3]
    simp [bid_request_go, h0]
  · intro f resp h0 h200 h201 h204
    have hb : bid_request f 3 = (Except.ok resp, []) := by
      unfold bid_request
      rw [hr3]
      simp [bid_request_go, h0]
    unfold update_bid
    rw [hb]
    simp [update_bid_result, h200, h201, h204]
  · intro resp h
    simp [wb_status_call, wb_request, h]

/-- Witness for claim C5: with the first attempt failing and the second
succeeding, the executor sleeps one second and returns the response. -/
theorem claim5_witness :
    bid_request f_retry_once 3 = (Except.ok ⟨200, "ok"⟩, [1]) :=
  claim5_retry_and_http.2.1 f_retry_once "timeout" ⟨200, "ok"⟩ rfl rfl

/-- Counterexample for claim C5 as stated: with every transport attempt
failing, the delays actually slept before the call fails are 1s and 2s,
not 1s, 2s and 4s. -/
theorem claim5_counterexample :
    (bid_request (fun _ => Except.error "timeout") 3).2 = [1, 2] ∧
    (bid_request (fun _ => Except.error "timeout") 3).2 ≠ [1, 2, 4] := by
  decide

theorem dispatch_loop_map_fst :
    ∀ (dr : Bool) (client : Decision → Except String (Bool × String)) (now_dt : DateTime)
      (ds : List Decision) (st : DecisionEngine.IdemMap),
      (dispatch_loop dr client now_dt st ds).2.map Prod.fst = ds := by
  intro dr client now_dt ds
  induction ds with
  | nil => intro st; rfl
  | cons d rest ih =>
    intro st
    cases hr : (DecisionEngine.should_skip_idempotent st d.advert_id d.desired now_dt).1 <;>
      cases dr <;>
        simp [dispatch_loop, hr, ih]

theorem dispatch_loop_live_eq :
    ∀ (client : Decision → Except String (Bool × String)) (now_dt : DateTime)
      (ds : List Decision) (st : DecisionEngine.IdemMap),
      dispatch_loop false client now_dt st ds =
        ((idem_flags now_dt st ds).1,
          (idem_flags now_dt st ds).2.map
            (fun p => (p.1,
              if p.2 then CycleEvent.skipped_idempotent else eventOf (client p.1)))) := by
  intro client now_dt ds
  induction ds with
  | nil => intro st; rfl
  | cons d rest ih =>
    intro st
    cases hr : (DecisionEngine.should_skip_idempotent st d.advert_id d.desired now_dt).1 <;>
      simp [dispatch_loop, idem_flags, hr, ih]

theorem dispatch_loop_dry_indep :
    ∀ (client client' : Decision → Except String (Bool × String)) (now_dt : DateTime)
      (ds : List Decision) (st : DecisionEngine.IdemMap),
      dispatch_loop true client now_dt st ds = dispatch_loop true client' now_dt st ds := by
  intro client client' now_dt ds
  induction ds with
  | nil => intro st; rfl
  | cons d rest ih =>
    intro st
    cases hr : (DecisionEngine.should_skip_idempotent st d.advert_id d.desired now_dt).1 <;>
      simp [dispatch_loop, hr, ih]

theorem dispatch_loop_dry_state :
    ∀ (client : Decision → Except String (Bool × String)) (now_dt : DateTime)
      (ds : List Decision) (st : DecisionEngine.IdemMap),
      (dispatch_loop true client now_dt st ds).1 =
        (dispatch_loop false client now_dt st ds).1 := by
  intro client now_dt ds
  induction ds with
  | nil => intro st; rfl
  | cons d rest ih =>
    intro st
    cases hr : (DecisionEngine.should_skip_idempotent st d.advert_id d.desired now_dt).1 <;>
      simp [dispatch_loop, hr, ih]

theorem dispatch_loop_dry_events :
    ∀ (client : Decision → Except String (Bool × String)) (now_dt : DateTime)
      (ds : List Decision) (st : DecisionEngine.IdemMap),
      (dispatch_loop true client now_dt st ds).2.all
        (fun p => decide (p.2 = CycleEvent.skipped_idempotent) ||
          decide (p.2 = CycleEvent.dry_run_log)) = true := by
  intro client now_dt ds
  induction ds with
  | nil => intro st; rfl
  | cons d rest ih =>
    intro st
    cases hr : (DecisionEngine.should_skip_idempotent st d.advert_id d.desired now_dt).1 <;>
      simp [dispatch_loop, hr, ih]

theorem filter_events_agree (client client' : Decision → Except String (Bool × String))
    (d : Decision) (h : ∀ d', d' ≠ d → client d' = client' d') :
    ∀ flags : List (Decision × Bool),
      (flags.map (fun p => (p.1,
          if p.2 then CycleEvent.skipped_idempotent else eventOf (client p.1)))).filter
            (fun p => decide (p.1 ≠ d)) =
        (flags.map (fun p => (p.1,
          if p.2 then CycleEvent.skipped_idempotent else eventOf (client' p.1)))).filter
            (fun p => decide (p.1 ≠ d)) := by
  intro flags
  induction flags with
  | nil => rfl
  | cons p rest ih =>
    simp only [decide_not] at ih ⊢
    by_cases hpd : p.1 = d
    · simp [List.filter_cons, hpd, ih]
    · have hcc : client p.1 = client' p.1 := h p.1 hpd
      simp [List.filter_cons, hpd, hcc, ih]

/-- Claim C8: in live mode one cycle equals a client-independent pass (the
idempotency flags and tracker state) combined with one reported event per
decision computed solely from the client outcome of that decision; hence
the cycle handles every decision exactly once and never escapes on a
failure, and two clients that agree everywhere except on one decision
yield the same final tracker state and identical events for all other
decisions: one resource's failure neither blocks nor rolls back the
rest of the cycle. -/
theorem claim8_failure_isolation :
    (∀ (client : Decision → Except String (Bool × String)) (cfg : Config)
        (campaigns : List CampaignMeta) (now_dt : DateTime)
        (st : DecisionEngine.IdemMap),
      one_cycle false client cfg campaigns now_dt st =
        ((idem_flags now_dt st (DecisionEngine.decide cfg now_dt campaigns)).1,
          (idem_flags now_dt st (DecisionEngine.decide cfg now_dt campaigns)).2.map
            (fun p => (p.1,
              if p.2 then CycleEvent.skipped_idempotent else eventOf (client p.1))))) ∧
    (∀ (client : Decision → Except String (Bool × String)) (cfg : Config)
        (campaigns : List CampaignMeta) (now_dt : DateTime)
        (st : DecisionEngine.IdemMap),
      (one_cycle false client cfg campaigns now_dt st).2.map Prod.fst =
        DecisionEngine.decide cfg now_dt campaigns) ∧
    (∀ (client client' : Decision → Except String (Bool × String)) (cfg : Config)
        (campaigns : List CampaignMeta) (now_dt : DateTime)
        (st : DecisionEngine.IdemMap) (d : Decision),
      (∀ d', d' ≠ d → client d' = client' d') →
        (one_cycle false client cfg campaigns now_dt st).1 =
            (one_cycle false client' cfg campaigns now_dt st).1 ∧
          (one_cycle false client cfg campaigns now_dt st).2.filter
              (fun p => decide (p.1 ≠ d)) =
            (one_cycle false client' cfg campaigns now_dt st).2.filter
              (fun p => decide (p.1 ≠ d))) := by
  refine ⟨?_, ?_, ?_⟩
  · intro client cfg campaigns now_dt st
    exact dispatch_loop_live_eq client now_dt (DecisionEngine.decide cfg now_dt campaigns) st
  · intro client cfg campaigns now_dt st
    exact dispatch_loop_map_fst false client now_dt
      (DecisionEngine.decide cfg now_dt campaigns) st
  · intro client client' cfg campaigns now_dt st d h
    unfold one_cycle
    rw [dispatch_loop_live_eq client now_dt (DecisionEngine.decide cfg now_dt campaigns) st,
      dispatch_loop_live_eq client' now_dt (DecisionEngine.decide cfg now_dt campaigns) st]
    exact ⟨rfl, filter_events_agree client client' d h _⟩

/-- Witness for claim C8: the always-ok client and the client failing only
on the scenario-B decision agree off that decision, so the cycle keeps the
same tracker state and the same events on every other decision. -/
theorem claim8_witness :
    (one_cycle false okClient cfg_b [camp_b] now_b []).1 =
        (one_cycle false (failOn decisionB) cfg_b [camp_b] now_b []).1 ∧
      (one_cycle false okClient cfg_b [camp_b] now_b []).2.filter
          (fun p => decide (p.1 ≠ decisionB)) =
        (one_cycle false (failOn decisionB) cfg_b [camp_b] now_b []).2.filter
          (fun p => decide (p.1 ≠ decisionB)) :=
  claim8_failure_isolation.2.2 okClient (failOn decisionB) cfg_b [camp_b] now_b []
    decisionB (fun _ hd => (if_neg hd).symm)

/-- Claim C9: in dry-run mode one cycle is independent of the client (the
dispatch branch is unreachable, so no external call and no dispatch
failure can occur), the idempotency tracker evolves exactly as in live
mode, every decision is processed and logged once, and every reported
event is either the idempotent skip or the dry-run log of the intended
action. -/
theorem claim9_dry_run_no_calls :
    ∀ (client client' : Decision → Except String (Bool × String)) (cfg : Config)
      (campaigns : List CampaignMeta) (now_dt : DateTime) (st : DecisionEngine.IdemMap),
      one_cycle true client cfg campaigns now_dt st =
          one_cycle true client' cfg campaigns now_dt st ∧
        (one_cycle true client cfg campaigns now_dt st).1 =
          (one_cycle false client cfg campaigns now_dt st).1 ∧
        (one_cycle true client cfg campaigns now_dt st).2.map Prod.fst =
          DecisionEngine.decide cfg now_dt campaigns ∧
        (one_cycle true client cfg campaigns now_dt st).2.all
          (fun p => decide (p.2 = CycleEvent.skipped_idempotent) ||
            decide (p.2 = CycleEvent.dry_run_log)) = true := by
  intro client client' cfg campaigns now_dt st
  exact ⟨dispatch_loop_dry_indep client client' now_dt _ st,
    dispatch_loop_dry_state client now_dt _ st,
    dispatch_loop_map_fst true client now_dt _ st,
    dispatch_loop_dry_events client now_dt _ st⟩

end WB
